import Mathlib

/-!
Verification of the rust-httpie command-line HTTP client (src/main.rs).

Strings are embedded as `List Char`. Standard-output behaviour is embedded as
the sequence of texts passed to `println!`, one list element per `println!`
call; `renderText` flattens that sequence to the full text written to stdout
(each `println!` appends one newline to its argument). Behaviour of
third-party crates (url, mime, http, reqwest, syntect, colored) that the
program delegates to is modelled from the spec where indicated.
-/

namespace Httpie

/-- A parsed `key=value` pair (struct `KvPair` in src/main.rs). -/
structure KvPair where
  k : List Char
  v : List Char
deriving DecidableEq, Repr

/-- Rust's `s.split('=')`: the segments of `s` separated by `'='`. The result
is always nonempty; leading, trailing or adjacent separators yield empty
segments, exactly as in Rust's `str::split`. -/
def splitEq : List Char → List (List Char)
  | [] => [[]]
  | c :: rest =>
    if c = '=' then [] :: splitEq rest
    else
      match splitEq rest with
      | [] => [[c]]
      | seg :: segs => (c :: seg) :: segs

/-- The segment of `s` strictly before the first `'='` (all of `s` when there
is no `'='`). -/
def beforeFirstEq : List Char → List Char
  | [] => []
  | c :: rest => if c = '=' then [] else c :: beforeFirstEq rest

/-- The entire remainder of `s` strictly after the first `'='` (empty when
there is no `'='`). -/
def afterFirstEq : List Char → List Char
  | [] => []
  | c :: rest => if c = '=' then rest else afterFirstEq rest

/-- `KvPair::from_str`: split the token on `'='` and take the first split
segment as the key and the second as the value; when the split yields fewer
than two segments (the token has no `'='`) the parse fails with the
`Failed to parse` message. -/
def KvPair.from_str (s : List Char) : Except (List Char) KvPair :=
  match splitEq s with
  | k :: v :: _ => Except.ok ⟨k, v⟩
  | _ => Except.error ("Failed to parse ".toList ++ s)

/-- The segments after the first one, as produced by `splitEq`. -/
def tailSegs (s : List Char) : List (List Char) :=
  if '=' ∈ s then splitEq (afterFirstEq s) else []

/-- The characters of `s` strictly before the first occurrence of `stop`
(all of `s` when `stop` does not occur). -/
def takeUntil (stop : Char) : List Char → List Char
  | [] => []
  | c :: rest => if c = stop then [] else c :: takeUntil stop rest

/-- The suffix of `s` from the first occurrence of `stop` on, inclusive
(empty when `stop` does not occur). -/
def dropUntil (stop : Char) : List Char → List Char
  | [] => []
  | c :: rest => if c = stop then c :: rest else dropUntil stop rest

/-- A character allowed in a URL scheme. -/
def isSchemeChar (c : Char) : Bool :=
  c.isAlpha || c.isDigit || c = '+' || c = '-' || c = '.'

/-- A parsed absolute URL. Modelled from the spec: `parse_url` delegates to
the `url` crate, which is not part of this repository; per the spec an
absolute URL consists of a scheme, a nonempty host and an optional path, and
parsing fails when the scheme or the host is missing or the syntax is
malformed. -/
structure Url where
  scheme : List Char
  host : List Char
  path : List Char
deriving DecidableEq, Repr

/-- Modelled from the spec: parsing a string as an absolute URL (the `url`
crate call `url.parse::<Url>()` in `parse_url`). The string must be
`scheme://host[path]` with a nonempty scheme of scheme characters and a
nonempty host; anything else is an `InvalidUrl` failure. -/
def Url.parse (s : List Char) : Except (List Char) Url :=
  match dropUntil ':' s with
  | ':' :: '/' :: '/' :: r =>
    if takeUntil ':' s ≠ [] ∧ (takeUntil ':' s).all isSchemeChar = true ∧
        takeUntil '/' r ≠ [] then
      Except.ok ⟨takeUntil ':' s, takeUntil '/' r, dropUntil '/' r⟩
    else Except.error "invalid url".toList
  | _ => Except.error "relative URL without a base".toList

/-- Modelled from the spec: the normalized serialization of a parsed URL
(`Url::into::<String>()`); a URL with an empty path serializes with the
root path `/`. -/
def Url.serialize (u : Url) : List Char :=
  u.scheme ++ (':' :: '/' :: '/' :: u.host) ++ (if u.path = [] then ['/'] else u.path)

/-- `parse_url`: parse the argument as an absolute URL and return its
normalized serialization; a parse failure propagates as the error. -/
def parse_url (s : List Char) : Except (List Char) (List Char) :=
  (Url.parse s).map Url.serialize

/-- A parsed MIME type. Modelled from the spec: the `mime` crate used by
`get_content_type` is not part of this repository; a MIME value has a type, a
subtype and optional trailing parameter text, and `mime::APPLICATION_JSON`
and `mime::TEXT_HTML` are the two constants the body printer compares
against. -/
structure Mime where
  mainType : List Char
  subType : List Char
  paramText : List Char
deriving DecidableEq, Repr

/-- The constant `mime::APPLICATION_JSON`. -/
def APPLICATION_JSON : Mime := ⟨"application".toList, "json".toList, []⟩

/-- The constant `mime::TEXT_HTML`. -/
def TEXT_HTML : Mime := ⟨"text".toList, "html".toList, []⟩

/-- Modelled from the spec: parsing a string as a MIME type (the
`.parse()` call in `get_content_type`); the string must be
`type/subtype` with nonempty type and subtype, optionally followed by
parameter text introduced by `';'`. -/
def parseMime (s : List Char) : Option Mime :=
  match dropUntil '/' s with
  | '/' :: rest =>
    if takeUntil '/' s ≠ [] ∧ takeUntil ';' rest ≠ [] then
      some ⟨takeUntil '/' s, takeUntil ';' rest, dropUntil ';' rest⟩
    else none
  | _ => none

/-- Modelled from the spec: `HeaderValue::to_str` of the `http` crate
succeeds exactly when every byte of the value is visible ASCII or the space
character; otherwise the conversion fails (and the `unwrap` in
`get_content_type` panics). -/
def headerValueToStr (v : List Char) : Option (List Char) :=
  if v.all (fun c => decide (32 ≤ c.toNat ∧ c.toNat ≤ 126)) then some v else none

/-- Look a header up by (lowercase) name in a header list (the `http` crate's
`HeaderMap::get`). -/
def lookupHeader (hs : List (List Char × List Char)) (n : List Char) :
    Option (List Char) :=
  (hs.find? (fun p => decide (p.1 = n))).map Prod.snd

/-- The canonical (lowercase) content-type header name. -/
def contentTypeName : List Char := "content-type".toList

/-- `get_content_type`: read the `content-type` header if present and parse
it as a MIME type. The two `unwrap` calls are embedded as `Except.error`
(a Rust panic aborting the invocation): one for a header value that is not a
valid string, one for a value that does not parse as a MIME type. -/
def get_content_type (hs : List (List Char × List Char)) :
    Except (List Char) (Option Mime) :=
  match lookupHeader hs contentTypeName with
  | none => Except.ok none
  | some v =>
    match headerValueToStr v with
    | none => Except.error "to_str unwrap panic".toList
    | some s =>
      match parseMime s with
      | none => Except.error "mime parse unwrap panic".toList
      | some m => Except.ok (some m)

/-- Rust's `LinesWithEndings`: the lines of a text, each including its
terminating newline character; a final fragment without a newline is a line,
and the empty text has no lines. -/
def linesWithEndings : List Char → List (List Char)
  | [] => []
  | c :: rest =>
    if c = '\n' then [c] :: linesWithEndings rest
    else
      match linesWithEndings rest with
      | [] => [[c]]
      | l :: ls => (c :: l) :: ls

/-- The escape sequence the highlighter emits before a line's text. Modelled
from the spec: `as_24_bit_terminal_escaped` decorates the highlighted spans
with 24-bit terminal color escapes, preserving the span text itself. -/
def hlEsc : List Char := "\x1b[48;2;43;48;59m\x1b[38;2;192;197;206m".toList

/-- Modelled from the spec: highlighting one line (`HighlightLines::highlight`
followed by `as_24_bit_terminal_escaped`): the line's text decorated with a
terminal color escape sequence, the text itself preserved. -/
def highlightLine (l : List Char) : List Char := hlEsc ++ l

/-- The extensions for which a syntax definition exists in syntect's default
definition set. Modelled from the spec: the default set includes definitions
for the `json` and `html` extensions. -/
def defaultSyntectExtensions : List (List Char) := ["json".toList, "html".toList]

/-- `print_syntect`: look the extension up in the loaded definition set (the
set is a parameter so that the `unwrap` on the lookup is visible); when the
lookup fails the `unwrap` panics (`Except.error`), otherwise one `println!`
is issued per line of the body (lines keep their terminating newline),
printing the highlighted line. -/
def print_syntect (ss : List (List Char)) (body : List Char) (ext : List Char) :
    Except (List Char) (List (List Char)) :=
  if ext ∈ ss then Except.ok ((linesWithEndings body).map highlightLine)
  else Except.error "find_by_extension unwrap panic".toList

/-- `print_body`: a body whose MIME type equals `APPLICATION_JSON` is
highlighted as `json`, one equal to `TEXT_HTML` as `html`; any other MIME
type, or an absent one, is printed raw in a single `println!`. -/
def print_body (m : Option Mime) (body : List Char) :
    Except (List Char) (List (List Char)) :=
  match m with
  | some v =>
    if v = APPLICATION_JSON then print_syntect defaultSyntectExtensions body "json".toList
    else if v = TEXT_HTML then print_syntect defaultSyntectExtensions body "html".toList
    else Except.ok [body]
  | none => Except.ok [body]

/-- The `colored` crate's `.green()`: the text wrapped in the green terminal
escape and the reset escape. -/
def green (s : List Char) : List Char :=
  "\x1b[32m".toList ++ s ++ "\x1b[0m".toList

/-- The `colored` crate's `.blue()`: the text wrapped in the blue terminal
escape and the reset escape. -/
def blue (s : List Char) : List Char :=
  "\x1b[34m".toList ++ s ++ "\x1b[0m".toList

/-- The `http` crate's `Debug` rendering of a `HeaderValue`, as produced by
the `{:?}` format in `print_headers`: the value wrapped in double quotes
(escaping of rare non-printable bytes is elided; the concrete instances used
here contain none). -/
def debugHeaderValue (v : List Char) : List Char := '"' :: (v ++ ['"'])

/-- The parts of an HTTP response the renderer consumes. The version field
holds the `Debug` text of the HTTP version (for example `HTTP/1.1`) and the
status field the `Display` text of the status (for example `200 OK`), as
produced by the format calls in `print_status`. -/
structure Response where
  version : List Char
  status : List Char
  headers : List (List Char × List Char)
  body : List Char

/-- `print_status`: one `println!` of the blue-colored `version status` text
followed by an explicit extra newline (the `{}\n` format). -/
def print_status (r : Response) : List (List Char) :=
  [blue (r.version ++ (' ' :: r.status)) ++ ['\n']]

/-- `print_headers`: one `println!` per header, `green(name): "value"` (the
value in `Debug` form), then one empty `println!`. -/
def print_headers (hs : List (List Char × List Char)) : List (List Char) :=
  hs.map (fun p => green p.1 ++ ": ".toList ++ debugHeaderValue p.2) ++ [[]]

/-- `print_response`: status block, header block, then the body rendered
according to the content type. The result is the list of `println!` emissions
together with the panic message if either `get_content_type` or the syntax
lookup in `print_syntect` panicked (the status and header blocks are already
printed when that happens). -/
def print_response (r : Response) : List (List Char) × Option (List Char) :=
  let pre := print_status r ++ print_headers r.headers
  match get_content_type r.headers with
  | Except.error e => (pre, some e)
  | Except.ok m =>
    match print_body m r.body with
    | Except.error e => (pre, some e)
    | Except.ok out => (pre ++ out, none)

/-- The full text written to stdout by a sequence of `println!` emissions:
each emission followed by the newline `println!` appends. -/
def renderText (ems : List (List Char)) : List Char :=
  (ems.map (fun e => e ++ ['\n'])).flatten

/-- A concrete response with one plain header, no content type and the raw
body `hi`. -/
def sampleRawResponse : Response :=
  ⟨"HTTP/1.1".toList, "200 OK".toList, [("x-h".toList, "v".toList)], "hi".toList⟩

/-- A received response whose content-type header value does not parse as a
MIME type (no slash), so rendering panics after the status and headers are
printed. -/
def badContentTypeResponse : Response :=
  ⟨"HTTP/1.1".toList, "500 Internal Server Error".toList,
    [(contentTypeName, "bogus".toList)], []⟩

/-- The JSON object body assembled by `post`: the pairs inserted in order into
a map (`HashMap::insert` replaces the stored value when the key is already
present), embedded as the resulting lookup function. -/
def buildBody (pairs : List KvPair) : List Char → Option (List Char) :=
  pairs.foldl (fun m p key => if key = p.k then some p.v else m key) (fun _ => none)

/-- The value of the last occurrence of a key in an ordered pair list (used to
state the last-write-wins property). -/
def lastValue (pairs : List KvPair) (key : List Char) : Option (List Char) :=
  (pairs.reverse.find? (fun p => decide (p.k = key))).map KvPair.v

/-- Outcome of sending one HTTP request. Modelled from the spec: the reqwest
client yields a response handle for every received HTTP response regardless
of its status code, and an error only for transport-level failures. -/
inductive SendOutcome where
  | received (r : Response)
  | transportError (e : List Char)

/-- A reqwest client together with its default header map. -/
structure Client where
  defaultHeaders : List (List Char × List Char)

/-- An HTTP request as assembled by the client: method, target URL, the
headers attached to it, and the JSON object body for POST. -/
structure Request where
  method : List Char
  url : List Char
  headers : List (List Char × List Char)
  jsonBody : Option (List Char → Option (List Char))

/-- The default header map assembled in `main`: `X-POWERED-BY: Rust` then
`USER_AGENT: Rust Httpie` (the `http` crate normalizes header names to
lowercase). -/
def mainDefaultHeaders : List (List Char × List Char) :=
  [("x-powered-by".toList, "Rust".toList), ("user-agent".toList, "Rust Httpie".toList)]

/-- The client built in `main`, carrying the two fixed default headers. -/
def mainClient : Client := ⟨mainDefaultHeaders⟩

/-- Modelled from the spec: the GET request the client sends (the client
attaches its default headers to every request; GET carries no body). -/
def buildGetRequest (c : Client) (url : List Char) : Request :=
  ⟨"GET".toList, url, c.defaultHeaders, none⟩

/-- Modelled from the spec: the POST request the client sends (default
headers attached; the JSON object body is the mapping built from the pairs). -/
def buildPostRequest (c : Client) (url : List Char) (pairs : List KvPair) :
    Request :=
  ⟨"POST".toList, url, c.defaultHeaders, some (buildBody pairs)⟩

/-- `get`: send the GET request through the network (a parameter, since the
network is external to the program) and print the received response; `?`
propagates exactly the transport error. -/
def get (net : Request → SendOutcome) (c : Client) (url : List Char) :
    Except (List Char) (List (List Char) × Option (List Char)) :=
  match net (buildGetRequest c url) with
  | SendOutcome.received r => Except.ok (print_response r)
  | SendOutcome.transportError e => Except.error e

/-- `post`: like `get`, with the JSON body built from the key-value pairs. -/
def post (net : Request → SendOutcome) (c : Client) (url : List Char)
    (pairs : List KvPair) :
    Except (List Char) (List (List Char) × Option (List Char)) :=
  match net (buildPostRequest c url pairs) with
  | SendOutcome.received r => Except.ok (print_response r)
  | SendOutcome.transportError e => Except.error e

/-- Whether the process exits with status zero: the dispatched call returned
`Ok` and no `unwrap` panicked while rendering. -/
def exitZero (res : Except (List Char) (List (List Char) × Option (List Char))) :
    Bool :=
  match res with
  | Except.ok (_, none) => true
  | _ => false

theorem splitEq_eq_cons (s : List Char) :
    splitEq s = beforeFirstEq s :: tailSegs s := by
  induction s with
  | nil => simp [splitEq, beforeFirstEq, tailSegs]
  | cons c rest ih =>
    by_cases hc : c = '='
    · subst hc
      simp [splitEq, beforeFirstEq, tailSegs, afterFirstEq]
    · have hne : ¬ ('=' = c) := fun h => hc h.symm
      simp [splitEq, beforeFirstEq, tailSegs, afterFirstEq, hc, hne, ih]

/-- Characterisation of `KvPair::from_str`: the parse succeeds exactly when
the token contains a `'='`; the key is the text before the first `'='` and the
value is the next split segment (the text between the first `'='` and the
following `'='`, if any). -/
theorem from_str_eq (s : List Char) :
    KvPair.from_str s =
      if '=' ∈ s then
        Except.ok ⟨beforeFirstEq s, beforeFirstEq (afterFirstEq s)⟩
      else Except.error ("Failed to parse ".toList ++ s) := by
  by_cases h : '=' ∈ s
  · rw [KvPair.from_str, splitEq_eq_cons, tailSegs, if_pos h,
      splitEq_eq_cons (afterFirstEq s)]
    simp [h]
  · rw [KvPair.from_str, splitEq_eq_cons, tailSegs, if_neg h]
    simp [h]

theorem takeUntil_append_dropUntil (stop : Char) (s : List Char) :
    takeUntil stop s ++ dropUntil stop s = s := by
  induction s with
  | nil => rfl
  | cons c rest ih =>
    by_cases hc : c = stop <;> simp [takeUntil, dropUntil, hc, ih]

/-- Any successfully parsed URL has a nonempty scheme and a nonempty host,
and the input string is exactly the scheme, the separator `://`, the host and
the path in that order. -/
theorem Url.parse_ok_shape (s : List Char) (u : Url)
    (h : Url.parse s = Except.ok u) :
    u.scheme ≠ [] ∧ u.host ≠ [] ∧
      s = u.scheme ++ (':' :: '/' :: '/' :: (u.host ++ u.path)) := by
  rw [Url.parse] at h
  split at h
  case h_2 => exact absurd h (by simp)
  case h_1 r hr =>
    split at h
    case isFalse => exact absurd h (by simp)
    case isTrue hcond =>
      cases h
      refine ⟨hcond.1, hcond.2.2, ?_⟩
      have hs := takeUntil_append_dropUntil ':' s
      have hrr := takeUntil_append_dropUntil '/' r
      rw [hr] at hs
      simp only [hrr]
      exact hs.symm

theorem linesWithEndings_ne_nil (c : Char) (s : List Char) :
    linesWithEndings (c :: s) ≠ [] := by
  simp only [linesWithEndings]
  split
  · simp
  · split <;> simp

theorem renderText_append (a b : List (List Char)) :
    renderText (a ++ b) = renderText a ++ renderText b := by
  simp [renderText]

theorem buildBody_append (pairs : List KvPair) (p : KvPair) (key : List Char) :
    buildBody (pairs ++ [p]) key =
      if key = p.k then some p.v else buildBody pairs key := by
  simp [buildBody, List.foldl_append]

theorem lastValue_append (pairs : List KvPair) (p : KvPair) (key : List Char) :
    lastValue (pairs ++ [p]) key =
      if key = p.k then some p.v else lastValue pairs key := by
  by_cases h : key = p.k
  · simp [lastValue, List.reverse_append, List.find?_cons, h]
  · have h2 : ¬ (p.k = key) := fun hh => h hh.symm
    simp [lastValue, List.reverse_append, List.find?_cons, h, h2]

/-- The map built by `post` answers every lookup with the value of the last
occurrence of the key among the pairs. -/
theorem buildBody_eq_lastValue (pairs : List KvPair) (key : List Char) :
    buildBody pairs key = lastValue pairs key := by
  induction pairs using List.reverseRecOn with
  | nil => rfl
  | append_singleton ps p ih => rw [buildBody_append, lastValue_append, ih]

/-- Claim C1, counterexample. The claim states that the value of a parsed pair
is the ENTIRE substring after the first `'='`. On the token `a=1=2` the code
yields the pair with value `1` (the second split segment), while the entire
substring after the first `'='` is `1=2`: the claim is false as stated. -/
theorem C1_counterexample :
    KvPair.from_str "a=1=2".toList = Except.ok ⟨"a".toList, "1".toList⟩ ∧
    afterFirstEq "a=1=2".toList = "1=2".toList ∧
    ("1".toList : List Char) ≠ "1=2".toList :=
  ⟨rfl, rfl, by decide⟩

/-- Claim C1, amended. Parsing fails exactly when the token contains no `'='`;
otherwise it yields the pair whose key is the substring before the first `'='`
and whose value is the substring after the first `'='` up to (excluding) the
next `'='`, if any; in particular `a=1` yields key `a`, value `1`, and `b=`
yields key `b`, empty value. -/
theorem C1_kv_parsing_amended :
    (∀ s : List Char,
      KvPair.from_str s =
        if '=' ∈ s then
          Except.ok ⟨beforeFirstEq s, beforeFirstEq (afterFirstEq s)⟩
        else Except.error ("Failed to parse ".toList ++ s)) ∧
    KvPair.from_str "a=1".toList = Except.ok ⟨"a".toList, "1".toList⟩ ∧
    KvPair.from_str "b=".toList = Except.ok ⟨"b".toList, []⟩ :=
  ⟨from_str_eq, rfl, rfl⟩

/-- Claim C2, counterexample. The claim states that a token starting with
`'='` (empty key segment) fails to parse; in fact `=v` parses successfully to
the pair with empty key and value `v`. -/
theorem C2_counterexample :
    KvPair.from_str "=v".toList = Except.ok ⟨[], "v".toList⟩ :=
  rfl

/-- Claim C2, amended. Key-value parsing does NOT reject an empty key: every
token starting with `'='` parses successfully to a pair whose key is empty and
whose value is the following split segment; in particular `=v` yields the pair
with empty key and value `v`, and `=` yields the pair with empty key and empty
value. -/
theorem C2_empty_key_amended :
    (∀ rest : List Char,
      KvPair.from_str ('=' :: rest) = Except.ok ⟨[], beforeFirstEq rest⟩) ∧
    KvPair.from_str "=v".toList = Except.ok ⟨[], "v".toList⟩ ∧
    KvPair.from_str "=".toList = Except.ok ⟨[], []⟩ := by
  refine ⟨fun rest => ?_, rfl, rfl⟩
  rw [from_str_eq]
  simp [beforeFirstEq, afterFirstEq]

/-- Claim C3. URL validation: a string can only parse successfully when it
carries a nonempty scheme and a nonempty host (so every input lacking either
fails before any network activity), and the well-formed absolute URLs
`http://abc.xyz` and `https://httpbin.org/post` succeed while the schemeless
`url` (the repository's own test input) fails. -/
theorem C3_url_validation :
    (∀ s u, Url.parse s = Except.ok u →
      u.scheme ≠ [] ∧ u.host ≠ [] ∧
        s = u.scheme ++ (':' :: '/' :: '/' :: (u.host ++ u.path))) ∧
    (parse_url "http://abc.xyz".toList).isOk = true ∧
    (parse_url "https://httpbin.org/post".toList).isOk = true ∧
    (parse_url "url".toList).isOk = false :=
  ⟨Url.parse_ok_shape, rfl, rfl, rfl⟩

/-- Witness for C3 at the concrete input `http://a`. -/
theorem C3_url_validation_witness :
    ("http".toList : List Char) ≠ [] ∧ ("a".toList : List Char) ≠ [] ∧
      "http://a".toList =
        "http".toList ++ (':' :: '/' :: '/' :: ("a".toList ++ ([] : List Char))) :=
  C3_url_validation.1 "http://a".toList ⟨"http".toList, "a".toList, []⟩ rfl

/-- Claim C10. URL normalization: an accepted URL is returned in normalized
serialization rather than verbatim; whenever the parsed URL has an empty path
the returned string is the input with `/` appended, and in particular
`http://abc.xyz` is returned as `http://abc.xyz/`, which differs textually
from the input. -/
theorem C10_url_normalization :
    (∀ s u, Url.parse s = Except.ok u → u.path = [] →
      parse_url s = Except.ok (s ++ ['/'])) ∧
    parse_url "http://abc.xyz".toList = Except.ok "http://abc.xyz/".toList ∧
    ("http://abc.xyz/".toList : List Char) ≠ "http://abc.xyz".toList := by
  refine ⟨?_, rfl, by decide⟩
  intro s u h hp
  have hs := Url.parse_ok_shape s u h
  rw [parse_url, h]
  simp [Url.serialize, hp, hs.2.2, Except.map]

/-- Witness for C10 at the concrete input `http://abc.xyz`. -/
theorem C10_url_normalization_witness :
    parse_url "http://abc.xyz".toList =
      Except.ok ("http://abc.xyz".toList ++ ['/']) :=
  C10_url_normalization.1 "http://abc.xyz".toList
    ⟨"http".toList, "abc.xyz".toList, []⟩ rfl rfl

theorem linesWithEndings_eq_nil (s : List Char)
    (h : linesWithEndings s = []) : s = [] := by
  cases s with
  | nil => rfl
  | cons c rest => exact absurd h (linesWithEndings_ne_nil c rest)

/-- Splitting a text into lines with endings loses nothing: flattening the
lines restores the text, so line contents and order are preserved. -/
theorem linesWithEndings_flatten (s : List Char) :
    (linesWithEndings s).flatten = s := by
  induction s with
  | nil => rfl
  | cons c rest ih =>
    simp only [linesWithEndings]
    by_cases hc : c = '\n'
    · subst hc
      simp [ih]
    · rw [if_neg hc]
      cases hrec : linesWithEndings rest with
      | nil =>
        have : rest = [] := linesWithEndings_eq_nil rest hrec
        subst this
        rfl
      | cons l ls =>
        rw [hrec] at ih
        simp only [List.flatten_cons] at ih ⊢
        simp [ih]

/-- Claim C4. Body rendering: a body declared `application/json` or
`text/html` is printed with exactly one highlighted `println!` per input line
(lines include their endings), each printed line being the input line's text
decorated with the highlight escape, and flattening the input lines restores
the body (contents and order preserved); for an absent or any other content
type the body is printed raw, unmodified, in a single `println!`. -/
theorem C4_body_rendering :
    (∀ body, print_body (some APPLICATION_JSON) body =
      Except.ok ((linesWithEndings body).map highlightLine)) ∧
    (∀ body, print_body (some TEXT_HTML) body =
      Except.ok ((linesWithEndings body).map highlightLine)) ∧
    (∀ l, highlightLine l = hlEsc ++ l) ∧
    (∀ body, (linesWithEndings body).flatten = body) ∧
    (∀ m body, m ≠ some APPLICATION_JSON → m ≠ some TEXT_HTML →
      print_body m body = Except.ok [body]) := by
  refine ⟨fun body => rfl, fun body => rfl, fun l => rfl,
    linesWithEndings_flatten, ?_⟩
  intro m body h1 h2
  cases m with
  | none => rfl
  | some v =>
    have hv1 : ¬ (v = APPLICATION_JSON) := fun h => h1 (by rw [h])
    have hv2 : ¬ (v = TEXT_HTML) := fun h => h2 (by rw [h])
    simp [print_body, hv1, hv2]

/-- Witness for C4 at the content type `none` and the body `hi`. -/
theorem C4_body_rendering_witness :
    print_body none "hi".toList = Except.ok ["hi".toList] :=
  C4_body_rendering.2.2.2.2 none "hi".toList (by simp) (by simp)

/-- Claim C5, counterexample. The claim states that each header is printed on
its own line in the form `Name: Value`. For the concrete response with the
header `x-h: v` the rendered output carries the header value in `Debug` form,
wrapped in double quotes (`x-h: "v"`), so the output differs from the layout
the claim prescribes (everything else — status line, blank lines, body —
agrees). -/
theorem C5_counterexample :
    renderText (print_response sampleRawResponse).1 =
      blue ("HTTP/1.1".toList ++ (' ' :: "200 OK".toList)) ++ ('\n' :: '\n' :: []) ++
        (green "x-h".toList ++ ": ".toList ++ debugHeaderValue "v".toList ++ ['\n']) ++
        ('\n' :: renderText ["hi".toList]) ∧
    renderText (print_response sampleRawResponse).1 ≠
      blue ("HTTP/1.1".toList ++ (' ' :: "200 OK".toList)) ++ ('\n' :: '\n' :: []) ++
        (green "x-h".toList ++ ": ".toList ++ "v".toList ++ ['\n']) ++
        ('\n' :: renderText ["hi".toList]) :=
  ⟨by decide, by decide⟩

/-- Claim C5, amended. Stdout layout: whenever the content type and the body
render without panic, the output is exactly the colored status line, one blank
line, one line per response header of the form `green(name): "value"` (the
value in `Debug` form, wrapped in double quotes), one blank line, and then the
body output, in that order and spacing. -/
theorem C5_stdout_layout_amended (r : Response) (m : Option Mime)
    (out : List (List Char))
    (h1 : get_content_type r.headers = Except.ok m)
    (h2 : print_body m r.body = Except.ok out) :
    renderText (print_response r).1 =
      blue (r.version ++ (' ' :: r.status)) ++ ('\n' :: '\n' :: []) ++
        (r.headers.map (fun p =>
          green p.1 ++ ": ".toList ++ debugHeaderValue p.2 ++ ['\n'])).flatten ++
        ('\n' :: renderText out) := by
  simp only [print_response, h1, h2]
  rw [renderText_append, renderText_append]
  simp [renderText, print_status, print_headers, List.map_map, Function.comp_def,
    List.append_assoc]

/-- Witness for C5 at the concrete response `sampleRawResponse`. -/
theorem C5_stdout_layout_amended_witness :
    renderText (print_response sampleRawResponse).1 =
      blue (sampleRawResponse.version ++ (' ' :: sampleRawResponse.status)) ++
        ('\n' :: '\n' :: []) ++
        (sampleRawResponse.headers.map (fun p =>
          green p.1 ++ ": ".toList ++ debugHeaderValue p.2 ++ ['\n'])).flatten ++
        ('\n' :: renderText ["hi".toList]) :=
  C5_stdout_layout_amended sampleRawResponse none ["hi".toList] rfl rfl

/-- Claim C6. Duplicate POST keys collapse with last-write-wins: the object
body built by `post` answers every key lookup with the value of that key's
last occurrence among the ordered pairs; for the pairs `a=1 a=2` the body
maps `a` to `2` and holds no entry for any other key (exactly one entry per
distinct key). -/
theorem C6_post_duplicate_keys :
    (∀ pairs key, buildBody pairs key = lastValue pairs key) ∧
    buildBody [⟨"a".toList, "1".toList⟩, ⟨"a".toList, "2".toList⟩] "a".toList =
      some "2".toList ∧
    (∀ key, key ≠ "a".toList →
      buildBody [⟨"a".toList, "1".toList⟩, ⟨"a".toList, "2".toList⟩] key = none) := by
  refine ⟨buildBody_eq_lastValue, rfl, ?_⟩
  intro key h
  have h2 : key ≠ (['a'] : List Char) := h
  simp [buildBody, h2]

/-- Witness for C6 at the concrete key `b`. -/
theorem C6_post_duplicate_keys_witness :
    buildBody [⟨"a".toList, "1".toList⟩, ⟨"a".toList, "2".toList⟩] "b".toList =
      none :=
  C6_post_duplicate_keys.2.2 "b".toList (by decide)

/-- Claim C7, counterexample. The claim states that the process exits zero for
every HTTP response actually received, whatever its content. For the received
response `badContentTypeResponse` dispatch does return the response for
rendering, but rendering panics on the malformed content-type value, so the
invocation does NOT finish with exit status zero. -/
theorem C7_counterexample :
    get (fun _ => SendOutcome.received badContentTypeResponse) mainClient
        "http://a/".toList =
      Except.ok (print_response badContentTypeResponse) ∧
    exitZero (get (fun _ => SendOutcome.received badContentTypeResponse)
        mainClient "http://a/".toList) = false :=
  ⟨rfl, rfl⟩

/-- Claim C7, amended. Non-2xx HTTP statuses are not errors: for every
received HTTP response — whatever its status — both `get` and `post` return
the rendered response rather than an error, and only a transport-level
failure surfaces as the dispatch error; the process exits zero whenever
rendering additionally completes without a panic (a malformed content-type
can still abort after receipt). -/
theorem C7_statuses_amended :
    (∀ net c url r, net (buildGetRequest c url) = SendOutcome.received r →
      get net c url = Except.ok (print_response r)) ∧
    (∀ net c url pairs r,
      net (buildPostRequest c url pairs) = SendOutcome.received r →
      post net c url pairs = Except.ok (print_response r)) ∧
    (∀ net c url e, net (buildGetRequest c url) = SendOutcome.transportError e →
      get net c url = Except.error e) ∧
    (∀ net c url pairs e,
      net (buildPostRequest c url pairs) = SendOutcome.transportError e →
      post net c url pairs = Except.error e) ∧
    (∀ net c url r, net (buildGetRequest c url) = SendOutcome.received r →
      (print_response r).2 = none → exitZero (get net c url) = true) := by
  refine ⟨fun net c url r h => ?_, fun net c url pairs r h => ?_,
    fun net c url e h => ?_, fun net c url pairs e h => ?_,
    fun net c url r h hp => ?_⟩
  · simp only [get, h]
  · simp only [post, h]
  · simp only [get, h]
  · simp only [post, h]
  · simp only [get, h]
    have hpair : print_response r = ((print_response r).1, none) := by rw [← hp]
    rw [hpair]
    rfl

/-- Witness for C7 at a network returning the concrete `sampleRawResponse`. -/
theorem C7_statuses_amended_witness :
    get (fun _ => SendOutcome.received sampleRawResponse) mainClient
        "http://a/".toList =
      Except.ok (print_response sampleRawResponse) :=
  C7_statuses_amended.1 (fun _ => SendOutcome.received sampleRawResponse)
    mainClient "http://a/".toList sampleRawResponse rfl

/-- Claim C8. Fatal render failure: when the content-type header is present
but its value is not a valid string, or it does not parse as a MIME type, the
content-type reader panics (no `Ok` result), and when the syntax-definition
lookup for the requested extension fails, `print_syntect` panics instead of
producing any output — the invocation aborts rather than falling back to raw
printing. -/
theorem C8_fatal_render_failure :
    (∀ hs v, lookupHeader hs contentTypeName = some v →
      headerValueToStr v = none → (get_content_type hs).isOk = false) ∧
    (∀ hs v s, lookupHeader hs contentTypeName = some v →
      headerValueToStr v = some s → parseMime s = none →
      (get_content_type hs).isOk = false) ∧
    (∀ ss body ext, ext ∉ ss → (print_syntect ss body ext).isOk = false) := by
  refine ⟨fun hs v h1 h2 => ?_, fun hs v s h1 h2 h3 => ?_,
    fun ss body ext h => ?_⟩
  · simp [get_content_type, h1, h2, Except.isOk, Except.toBool]
  · simp [get_content_type, h1, h2, h3, Except.isOk, Except.toBool]
  · simp [print_syntect, h, Except.isOk, Except.toBool]

/-- Witness for C8: a content-type header whose value holds a non-ASCII byte
makes the content-type reader panic. -/
theorem C8_fatal_render_failure_witness :
    (get_content_type [(contentTypeName, [Char.ofNat 200])]).isOk = false :=
  C8_fatal_render_failure.1 [(contentTypeName, [Char.ofNat 200])]
    [Char.ofNat 200] rfl rfl

/-- Claim C9. Fixed default headers: every dispatched request, for both the
get and the post subcommand, carries the custom identifying header
`x-powered-by: Rust` and the user-agent header `Rust Httpie` (header names
are normalized to lowercase by the `http` crate). -/
theorem C9_default_headers :
    (∀ url, lookupHeader (buildGetRequest mainClient url).headers
        "x-powered-by".toList = some "Rust".toList ∧
      lookupHeader (buildGetRequest mainClient url).headers
        "user-agent".toList = some "Rust Httpie".toList) ∧
    (∀ url pairs, lookupHeader (buildPostRequest mainClient url pairs).headers
        "x-powered-by".toList = some "Rust".toList ∧
      lookupHeader (buildPostRequest mainClient url pairs).headers
        "user-agent".toList = some "Rust Httpie".toList) :=
  ⟨fun _ => ⟨rfl, rfl⟩, fun _ _ => ⟨rfl, rfl⟩⟩

end Httpie
